import Mathlib

set_option maxRecDepth 4000000

/-!
Verification of `src/python/s3_bucket_summary.py` (aws-s3-facts).

The Python program is embedded shallowly:

* S3 objects, buckets and the per-bucket accumulation of
  `get_s3_summary` become explicit Lean data and folds;
* the `SIGALRM` global deadline becomes a fuel parameter counting how
  many buckets the loop may attempt before `TimeoutException` fires
  (the alarm fires at a bucket boundary in the model; the code keeps
  only fully-appended records either way);
* Python `dict`/`defaultdict` become insertion-ordered association
  lists;
* Python `float` arithmetic (used in the proportional storage-class
  size attribution and nowhere else in an observable way) is modelled
  exactly: IEEE binary64 round-to-nearest-even over `ℚ`, valid for the
  normal range, which covers every value these computations produce.
-/

namespace S3Facts

/-- One S3 object as seen by `list_objects_v2`: its `Size` and optional
`StorageClass` field (`obj.get('StorageClass', 'STANDARD')`). -/
structure S3Object where
  size : Nat
  storageClass : Option String
deriving DecidableEq, Repr

/-- The listing the API returns for one bucket: the bucket `Name`, the
pages the paginator yields (a page without `Contents` is `[]`), and
whether pagination ends in a `ClientError` (access denied) after the
listed pages were consumed. -/
structure BucketInput where
  name : String
  pages : List (List S3Object)
  accessError : Bool
deriving DecidableEq, Repr

/-- Insertion-ordered association list standing for a Python dict. -/
abbrev AssocL (α : Type) := List (String × α)

/-- The per-bucket summary dict appended to `summary`
(`'Bucket Name' / 'Object Count' / 'Total Size (Bytes)' / 'Storage Classes'`). -/
structure BucketRecord where
  name : String
  objectCount : Nat
  totalSize : Nat
  storageClasses : AssocL Nat
deriving DecidableEq, Repr

/-- `storage_classes[storage_class] += 1` on a `defaultdict(int)`:
bump the bound value, creating the key with value 1 when absent. -/
def bumpHist : AssocL Nat → String → AssocL Nat
  | [], k => [(k, 1)]
  | (k', v) :: t, k => if k' = k then (k', v + 1) :: t else (k', v) :: bumpHist t k

/-- `obj.get('StorageClass', 'STANDARD')`. -/
def objKey (o : S3Object) : String := o.storageClass.getD "STANDARD"

/-- The body of the object loop: increment `object_count`, add the
`Size`, bump the storage-class histogram. -/
def accStep (st : Nat × Nat × AssocL Nat) (o : S3Object) : Nat × Nat × AssocL Nat :=
  (st.1 + 1, st.2.1 + o.size, bumpHist st.2.2 (objKey o))

/-- The inner object loop of `get_s3_summary`: starting from
`object_count = 0`, `total_size = 0`, empty histogram, each object
increments the count, adds its size, and bumps its storage class. -/
def accObjects (objs : List S3Object) : Nat × Nat × AssocL Nat :=
  objs.foldl accStep (0, 0, [])

/-- The record `get_s3_summary` would append for bucket `b` after its
pagination stops (normally or by `ClientError`). -/
def mkRecord (b : BucketInput) : BucketRecord :=
  let st := accObjects b.pages.flatten
  ⟨b.name, st.1, st.2.1, st.2.2⟩

/-- One iteration of the bucket loop: paginate (the accumulated
counts), and on a `ClientError` with `object_count == 0` `continue`
without appending; otherwise append the (possibly partial) record. -/
def processBucket (b : BucketInput) : Option BucketRecord :=
  if b.accessError ∧ (accObjects b.pages.flatten).1 = 0 then none
  else some (mkRecord b)

/-- The bucket loop of `get_s3_summary` with the global deadline as
fuel: when the fuel reaches 0 mid-scan, `TimeoutException` fires and
the loop stops with the records appended so far. -/
def scanLoop : List BucketInput → Nat → List BucketRecord → List BucketRecord
  | _, 0, acc => acc
  | [], _ + 1, acc => acc
  | b :: rest, d + 1, acc =>
    match processBucket b with
    | none => scanLoop rest d acc
    | some r => scanLoop rest d (acc ++ [r])

/-- A full scan that never hits the deadline. -/
def scanRecords (inputs : List BucketInput) : List BucketRecord :=
  scanLoop inputs inputs.length []

/-- `get_s3_summary`: on a credential failure the session is unusable
and `([], None)` comes back (via the generic exception handler with
`processed_buckets == 0`); otherwise the bucket loop runs under the
deadline, and per lines 142-161 an empty `summary` yields `([], None)`
while a non-empty one is returned with the account id. -/
def getS3Summary (credsOk : Bool) (inputs : List BucketInput) (deadline : Nat)
    (acct : String) : List BucketRecord × Option String :=
  if !credsOk then ([], none)
  else
    let s := scanLoop inputs deadline []
    if s.isEmpty then ([], none) else (s, some acct)

/-- `__main__` checks `if summary is not None:`; only an actual Python
`None` (never produced by `get_s3_summary`, which always returns a
list) would reach `sys.exit(1)`. -/
def mainExitCode (scanRet : Option (List BucketRecord × Option String)) : Nat :=
  match scanRet with
  | some _ => 0
  | none => 1

/-! ### IEEE binary64 model

`write_summary_to_csv` computes `proportion = count / bucket_objects`
(true division of Python ints: the correctly rounded double of the
exact quotient) and `int(bucket_size * proportion)` (the int converted
to double, a correctly rounded product, then truncation toward zero).
Every double these computations produce is a nonnegative dyadic
rational, so a double value is modelled exactly as `m / 2 ^ k` with
`m k : ℕ`, and each operation rounds to 53 significant bits, nearest,
ties to even.  Overflow and subnormals are outside the range any of
these computations reach and are not modelled. -/

/-- A nonnegative dyadic rational `m / 2 ^ k`: the exact value of a
nonnegative double. -/
structure Dy where
  m : Nat
  k : Nat
deriving DecidableEq, Repr

/-- Round `a / b` to the nearest integer, ties to even (`b > 0`). -/
def rndHalfEvenN (a b : Nat) : Nat :=
  let d := a / b
  let r := a % b
  if 2 * r < b then d
  else if b < 2 * r then d + 1
  else if d % 2 = 0 then d else d + 1

/-- Floor of `log2 n` with explicit fuel (structural, so the kernel
can evaluate it; `fuel ≥ log2 n` suffices and `fuel = n` always is). -/
def log2fuel : Nat → Nat → Nat
  | 0, _ => 0
  | fuel + 1, n => if n < 2 then 0 else log2fuel fuel (n / 2) + 1

/-- Is `2 ^ e ≤ a / b`? (`a, b > 0`.) -/
def le2pow (e : ℤ) (a b : Nat) : Bool :=
  if 0 ≤ e then decide (b * 2 ^ e.toNat ≤ a) else decide (b ≤ a * 2 ^ (-e).toNat)

/-- Greatest `e` with `2 ^ e ≤ a / b`, for `a, b > 0`. -/
def ilog2NN (a b : Nat) : ℤ :=
  let g : ℤ := (log2fuel a a : ℤ) - (log2fuel b b : ℤ)
  if le2pow (g + 1) a b then g + 1 else if le2pow g a b then g else g - 1

/-- Round `a / b` (`b > 0`) to the nearest IEEE binary64 value:
53 significant bits, nearest, ties to even. -/
def fpRoundNN (a b : Nat) : Dy :=
  if a = 0 then ⟨0, 0⟩
  else
    let e := ilog2NN a b
    let s : ℤ := 52 - e
    let frac := if 0 ≤ s then (a * 2 ^ s.toNat, b) else (a, b * 2 ^ (-s).toNat)
    let mant := rndHalfEvenN frac.1 frac.2
    if 0 ≤ s then ⟨mant, s.toNat⟩ else ⟨mant * 2 ^ (-s).toNat, 0⟩

/-- Conversion of a nonnegative Python int to a double. -/
def pyFloat (n : Nat) : Dy := fpRoundNN n 1

/-- Python `/` on two nonnegative ints: correctly rounded double quotient. -/
def pyDivII (a b : Nat) : Dy := fpRoundNN a b

/-- Double multiplication: correctly rounded product. -/
def fpMul (x y : Dy) : Dy := fpRoundNN (x.m * y.m) (2 ^ x.k * 2 ^ y.k)

/-- Python `int()` on a nonnegative double: truncation toward zero. -/
def pyInt (d : Dy) : Nat := d.m / 2 ^ d.k

/-! ### Reporter -/

/-- `m[k] += v` on a `defaultdict(int)`: add to the bound value,
creating the key (with default `0 + v`) when absent. -/
def addTo (m : AssocL Nat) (k : String) (v : Nat) : AssocL Nat :=
  match m with
  | [] => [(k, v)]
  | (k', w) :: t => if k' = k then (k', w + v) :: t else (k', w) :: addTo t k v

/-- The size `write_summary_to_csv` attributes to a class holding
`count` of the bucket's `objects` objects:
`int(bucket_size * (count / objects))` in double arithmetic. -/
def classSize (bucketSize count objects : Nat) : Nat :=
  pyInt (fpMul (pyFloat bucketSize) (pyDivII count objects))

/-- The body of the first-pass loop for one bucket `entry`:
`if storage_classes and bucket_objects > 0`, add each class's count and
proportional size; else `count as STANDARD`. -/
def csvEntryStep (maps : AssocL Nat × AssocL Nat) (entry : BucketRecord) :
    AssocL Nat × AssocL Nat :=
  if entry.storageClasses ≠ [] ∧ 0 < entry.objectCount then
    entry.storageClasses.foldl
      (fun m p =>
        (addTo m.1 p.1 p.2,
         addTo m.2 p.1 (classSize entry.totalSize p.2 entry.objectCount)))
      maps
  else
    (addTo maps.1 "STANDARD" entry.objectCount,
     addTo maps.2 "STANDARD" entry.totalSize)

/-- First pass of `write_summary_to_csv` (lines 191-206): accumulate
per-class object counts and proportionally attributed sizes; a bucket
with an empty histogram or `object_count == 0` counts entirely as
`STANDARD`. -/
def csvFirstPass (summary : List BucketRecord) : AssocL Nat × AssocL Nat :=
  summary.foldl csvEntryStep ([], [])

/-- The statistics dict `write_summary_to_csv` returns for the console. -/
structure Stats where
  total_buckets : Nat
  total_objects : Nat
  total_size : Nat
  storage_class_objects : AssocL Nat
  storage_class_sizes : AssocL Nat
deriving DecidableEq, Repr

/-- `write_summary_to_csv`: the first pass builds the per-class maps,
the second pass sums `Object Count` / `Total Size (Bytes)` directly,
and the dict of lines 241-247 is returned.  (The "largest bucket"
rows after the `return` are dead code.) -/
def write_summary_to_csv (summary : List BucketRecord) : Stats :=
  let maps := csvFirstPass summary
  let total_objects := summary.foldl (fun a e => a + e.objectCount) 0
  let total_size := summary.foldl (fun a e => a + e.totalSize) 0
  ⟨summary.length, total_objects, total_size, maps.1, maps.2⟩

/-- The body of the fallback distribution loop of
`print_console_summary` for one bucket `entry` (lines 290-303): the
same logic as the CSV first pass, duplicated in the source. -/
def consoleEntryStep (maps : AssocL Nat × AssocL Nat) (entry : BucketRecord) :
    AssocL Nat × AssocL Nat :=
  if entry.storageClasses ≠ [] ∧ 0 < entry.objectCount then
    entry.storageClasses.foldl
      (fun m p =>
        (addTo m.1 p.1 p.2,
         addTo m.2 p.1 (classSize entry.totalSize p.2 entry.objectCount)))
      maps
  else
    (addTo maps.1 "STANDARD" entry.objectCount,
     addTo maps.2 "STANDARD" entry.totalSize)

/-- The fallback aggregation of `print_console_summary`
(lines 280-303), used when `csv_stats` is absent: direct sums for the
totals and the same per-class distribution loop. -/
def consoleFallbackStats (summary : List BucketRecord) : Stats :=
  let total_buckets := summary.length
  let total_objects := (summary.map (·.objectCount)).sum
  let total_size := (summary.map (·.totalSize)).sum
  let maps := summary.foldl consoleEntryStep ([], [])
  ⟨total_buckets, total_objects, total_size, maps.1, maps.2⟩

/-- Sum of the values of an association list (total object count of a
histogram, or of a distribution map). -/
def sumVals (m : AssocL Nat) : Nat := (m.map (·.2)).sum

/-! ### Console summary -/

/-- One comparison step of Python's `max` with the `Object Count` key:
the current best `b` is replaced only when `key(y) > key(b)`. -/
def pyStep (b y : BucketRecord) : BucketRecord :=
  if b.objectCount < y.objectCount then y else b

/-- `max(summary, key=lambda x: x['Object Count'])` on a non-empty
list: Python's `max` keeps the current best and replaces it only on a
strictly greater key, so the first maximum wins. -/
def pyMax (l : List BucketRecord) : Option BucketRecord :=
  match l with
  | [] => none
  | x :: xs => some (xs.foldl pyStep x)

/-- Insert `','` after every third character (input and output are
reversed digit lists): the `{:,}` thousands grouping. -/
def group3 : List Char → List Char
  | [] => []
  | [a] => [a]
  | [a, b] => [a, b]
  | [a, b, c] => [a, b, c]
  | a :: b :: c :: rest => a :: b :: c :: ',' :: group3 rest

/-- Python `f"{n:,}"` for a nonnegative int. -/
def commaNat (n : Nat) : String := ⟨(group3 (toString n).data.reverse).reverse⟩

/-- Python `f"{x:,.1f}"` for a nonnegative double: correctly rounded
(ties to even) to one decimal digit, with thousands grouping. -/
def fmt1 (d : Dy) : String :=
  let n10 := rndHalfEvenN (d.m * 10) (2 ^ d.k)
  commaNat (n10 / 10) ++ "." ++ toString (n10 % 10)

/-- The two return statements inside `format_size`'s loop (and the
final `PB` return, which formats the same way as the non-`B` units). -/
def renderUnit (d : Dy) (u : String) : String :=
  if u = "B" then commaNat (pyInt d) ++ " " ++ u else fmt1 d ++ " " ++ u

/-- `size_bytes /= 1024.0`: the int is converted to a double on first
use (rounding; a no-op on a value that is already a double) and the
division by `2 ^ 10` is exact in the normal range. -/
def dyFloatDiv1024 (d : Dy) : Dy :=
  let r := fpRoundNN d.m (2 ^ d.k)
  ⟨r.m, r.k + 10⟩

/-- The unit loop of `format_size`: return at the first unit where the
value is below 1024 — or unconditionally at `'TB'` — else divide by
1024 and move to the next unit.  The `[]` case is the trailing
`return f"{size_bytes:,.1f} PB"` after the loop. -/
def fsGo : Dy → List String → String
  | d, [] => renderUnit d "PB"
  | d, u :: rest =>
    if d.m < 1024 * 2 ^ d.k ∨ u = "TB" then renderUnit d u
    else fsGo (dyFloatDiv1024 d) rest

/-- `format_size(size_bytes)` for a nonnegative int input. -/
def format_size (n : Nat) : String := fsGo ⟨n, 0⟩ ["B", "KB", "MB", "GB", "TB"]

/-- Dict lookup with default 0 (every key the console reads is present
in both distribution dicts, which are always written together). -/
def lookup0 (m : AssocL Nat) (k : String) : Nat :=
  ((m.find? (fun p => p.1 == k)).map (·.2)).getD 0

/-- Insert into an ascending list of strings: one step of `sorted`. -/
def insortStr (x : String) : List String → List String
  | [] => [x]
  | y :: t => if x < y then x :: y :: t else y :: insortStr x t

/-- `sorted(m.keys())`: the keys in ascending lexicographic order. -/
def pySortedKeys (m : AssocL Nat) : List String :=
  (m.map (·.1)).foldr insortStr []

/-- One line of the console storage-class distribution:
`f"  {sc}: {count:,} objects ({format_size(size)})"`. -/
def distLine (sc : String) (count size : Nat) : String :=
  "  " ++ sc ++ ": " ++ commaNat count ++ " objects (" ++ format_size size ++ ")"

/-- What `print_console_summary` shows: the optional account line, the
three totals, the distribution lines in sorted key order, and the
largest bucket (absent when `summary` is empty). -/
structure ConsoleView where
  account : Option String
  totalBuckets : Nat
  totalObjects : Nat
  totalSizeStr : String
  distRows : List String
  largest : Option BucketRecord
deriving DecidableEq, Repr

/-- `print_console_summary(summary, account_id, csv_stats)`: `none`
models the early `"No S3 buckets found or accessible."` return, taken
when `summary` is empty and `csv_stats` is absent; otherwise the stats
dict (or the fallback aggregation) is rendered. -/
def print_console_summary (summary : List BucketRecord) (accountId : Option String)
    (csvStats : Option Stats) : Option ConsoleView :=
  if summary = [] ∧ csvStats = none then none
  else
    let st :=
      match csvStats with
      | some st => st
      | none => consoleFallbackStats summary
    some
      { account := accountId
        totalBuckets := st.total_buckets
        totalObjects := st.total_objects
        totalSizeStr := format_size st.total_size
        distRows :=
          (pySortedKeys st.storage_class_objects).map
            (fun sc =>
              distLine sc (lookup0 st.storage_class_objects sc)
                (lookup0 st.storage_class_sizes sc))
        largest := pyMax summary }

/-! ### Concrete inputs used by claim instances and witnesses -/

/-- Histogram `{STANDARD: 3, GLACIER: 1}`, 4 objects, 4000 bytes: the
worked example of the spec. -/
def exRec : BucketRecord := ⟨"example-bucket", 4, 4000, [("STANDARD", 3), ("GLACIER", 1)]⟩

/-- Histogram `{A: 29, B: 71}`, 100 objects, 100 bytes: the float
attribution for `A` is `int(100 * (29/100)) = 28`, not `floor = 29`. -/
def pcRec : BucketRecord := ⟨"percent-bucket", 100, 100, [("A", 29), ("B", 71)]⟩

/-- Histogram `{A: 1, B: 9}`, 10 objects, `2 ^ 55` bytes: the float
attributions sum to `2 ^ 55 + 1`, exceeding the bucket's total size. -/
def bigRec : BucketRecord := ⟨"big-bucket", 10, 2 ^ 55, [("A", 1), ("B", 9)]⟩

/-- Five clean one-object buckets for the deadline scenario. -/
def ebkt (i : Nat) : BucketInput :=
  ⟨"bucket" ++ toString i, [[⟨100 * (i + 1), none⟩]], false⟩

/-- The five-bucket listing of the deadline scenario. -/
def exampleFive : List BucketInput := [ebkt 0, ebkt 1, ebkt 2, ebkt 3, ebkt 4]

/-- A bucket whose pagination fails after one STANDARD object of 7
bytes was counted. -/
def errBucket : BucketInput := ⟨"err-bucket", [[⟨7, none⟩]], true⟩

/-- A bucket whose pagination fails before any object was listed. -/
def errEmptyBucket : BucketInput := ⟨"err-empty", [], true⟩

/-- Records with object counts `[5, 20, 20, 3]` for the tie-breaking
scenario. -/
def ex7 : List BucketRecord :=
  [⟨"b0", 5, 50, [("STANDARD", 5)]⟩, ⟨"b1", 20, 200, [("STANDARD", 20)]⟩,
   ⟨"b2", 20, 300, [("STANDARD", 20)]⟩, ⟨"b3", 3, 30, [("STANDARD", 3)]⟩]

/-! ### Helper lemmas -/

theorem scanLoop_eq_filterMap (inputs : List BucketInput) :
    ∀ (d : Nat) (acc : List BucketRecord),
      scanLoop inputs d acc = acc ++ (inputs.take d).filterMap processBucket := by
  induction inputs with
  | nil => intro d acc; cases d <;> simp [scanLoop]
  | cons b rest ih =>
      intro d acc
      cases d with
      | zero => simp [scanLoop]
      | succ d =>
          simp only [scanLoop, List.take_succ_cons, List.filterMap_cons]
          cases hb : processBucket b with
          | none => simp [ih d acc]
          | some r => simp [ih d (acc ++ [r])]

theorem scanRecords_eq (inputs : List BucketInput) :
    scanRecords inputs = inputs.filterMap processBucket := by
  simp [scanRecords, scanLoop_eq_filterMap, List.take_length]

theorem foldl_add_shift {α : Type} (f : α → Nat) (l : List α) :
    ∀ n : Nat, l.foldl (fun a e => a + f e) n = n + (l.map f).sum := by
  induction l with
  | nil => intro n; simp
  | cons e t ih => intro n; simp [List.foldl_cons, ih, Nat.add_assoc]

theorem foldl_add_eq_sum {α : Type} (f : α → Nat) (l : List α) :
    l.foldl (fun a e => a + f e) 0 = (l.map f).sum := by
  simpa using foldl_add_shift f l 0

theorem sumVals_addTo (m : AssocL Nat) (k : String) (v : Nat) :
    sumVals (addTo m k v) = sumVals m + v := by
  induction m with
  | nil => simp [addTo, sumVals]
  | cons p t ih =>
      by_cases h : p.1 = k
      · simp [addTo, h, sumVals, Nat.add_assoc, Nat.add_comm v]
      · simp [addTo, h, sumVals] at ih ⊢
        omega

theorem sumVals_bumpHist (h : AssocL Nat) (k : String) :
    sumVals (bumpHist h k) = sumVals h + 1 := by
  induction h with
  | nil => simp [bumpHist, sumVals]
  | cons p t ih =>
      rcases p with ⟨k', v⟩
      by_cases hk : k' = k
      · simp [bumpHist, hk, sumVals, Nat.add_assoc, Nat.add_comm 1]
      · simp [bumpHist, hk, sumVals] at ih ⊢
        omega

theorem pos_bumpHist (h : AssocL Nat) (k : String)
    (hp : ∀ p ∈ h, 0 < p.2) : ∀ p ∈ bumpHist h k, 0 < p.2 := by
  induction h with
  | nil => intro p hmem; simp [bumpHist] at hmem; simp [hmem]
  | cons q t ih =>
      rcases q with ⟨k', v⟩
      intro p hmem
      by_cases hk : k' = k
      · simp [bumpHist, hk] at hmem
        rcases hmem with h1 | h2
        · simp [h1]
        · exact hp p (by simp [h2])
      · simp [bumpHist, hk] at hmem
        rcases hmem with h1 | h2
        · exact hp p (by simp [h1])
        · exact ih (fun q hq => hp q (by simp [hq])) p h2

theorem accFold_inv (objs : List S3Object) :
    ∀ st : Nat × Nat × AssocL Nat,
      sumVals st.2.2 = st.1 → (∀ p ∈ st.2.2, 0 < p.2) →
      sumVals (objs.foldl accStep st).2.2 = (objs.foldl accStep st).1 ∧
        ∀ p ∈ (objs.foldl accStep st).2.2, 0 < p.2 := by
  induction objs with
  | nil => intro st h1 h2; exact ⟨h1, h2⟩
  | cons o t ih =>
      intro st h1 h2
      refine ih (accStep st o) ?_ ?_
      · simp [accStep, sumVals_bumpHist, h1]
      · exact pos_bumpHist _ _ h2

theorem accObjects_inv (objs : List S3Object) :
    sumVals (accObjects objs).2.2 = (accObjects objs).1 ∧
      ∀ p ∈ (accObjects objs).2.2, 0 < p.2 :=
  accFold_inv objs (0, 0, []) (by simp [sumVals]) (by simp)

theorem sumVals_zero_pos_nil (h : AssocL Nat)
    (hz : sumVals h = 0) (hp : ∀ p ∈ h, 0 < p.2) : h = [] := by
  cases h with
  | nil => rfl
  | cons p t =>
      exfalso
      have h1 := hp p (by simp)
      simp [sumVals] at hz
      omega

theorem classFold_fst (size objs : Nat) (h : AssocL Nat) :
    ∀ maps : AssocL Nat × AssocL Nat,
      (h.foldl
          (fun m p => (addTo m.1 p.1 p.2, addTo m.2 p.1 (classSize size p.2 objs)))
          maps).1
        = h.foldl (fun m1 p => addTo m1 p.1 p.2) maps.1 := by
  induction h with
  | nil => intro maps; rfl
  | cons p t ih => intro maps; simpa using ih _

theorem sumVals_classFold (h : AssocL Nat) :
    ∀ m1 : AssocL Nat,
      sumVals (h.foldl (fun m1 p => addTo m1 p.1 p.2) m1) = sumVals m1 + sumVals h := by
  induction h with
  | nil => intro m1; simp [sumVals]
  | cons p t ih =>
      intro m1
      simp only [List.foldl_cons]
      rw [ih, sumVals_addTo]
      simp [sumVals, Nat.add_assoc]

theorem sumVals_csvEntryStep (maps : AssocL Nat × AssocL Nat) (entry : BucketRecord)
    (he : sumVals entry.storageClasses = entry.objectCount) :
    sumVals (csvEntryStep maps entry).1 = sumVals maps.1 + entry.objectCount := by
  unfold csvEntryStep
  by_cases hc : entry.storageClasses ≠ [] ∧ 0 < entry.objectCount
  · rw [if_pos hc, classFold_fst, sumVals_classFold, he]
  · rw [if_neg hc]
    exact sumVals_addTo _ _ _

theorem sumVals_csvFold (l : List BucketRecord) :
    ∀ maps : AssocL Nat × AssocL Nat,
      (∀ r ∈ l, sumVals r.storageClasses = r.objectCount) →
      sumVals ((l.foldl csvEntryStep maps).1)
        = sumVals maps.1 + (l.map (·.objectCount)).sum := by
  induction l with
  | nil => intro maps _; simp
  | cons e t ih =>
      intro maps hall
      simp only [List.foldl_cons, List.map_cons, List.sum_cons]
      rw [ih _ (fun r hr => hall r (by simp [hr])),
        sumVals_csvEntryStep _ _ (hall e (by simp))]
      omega

theorem mkRecord_objectCount (b : BucketInput) :
    (mkRecord b).objectCount = (accObjects b.pages.flatten).1 := rfl

theorem pyFold_spec (ys : List BucketRecord) :
    ∀ b : BucketRecord,
      b.objectCount ≤ (ys.foldl pyStep b).objectCount ∧
      (∀ y ∈ ys, y.objectCount ≤ (ys.foldl pyStep b).objectCount) ∧
      (ys.foldl pyStep b = b ∨
        ∃ i, ∃ h : i < ys.length,
          ys.get ⟨i, h⟩ = ys.foldl pyStep b ∧
          b.objectCount < (ys.foldl pyStep b).objectCount ∧
          ∀ j, ∀ hj : j < i,
            (ys.get ⟨j, Nat.lt_trans hj h⟩).objectCount
              < (ys.foldl pyStep b).objectCount) := by
  induction ys with
  | nil => intro b; exact ⟨Nat.le_refl _, by simp, Or.inl rfl⟩
  | cons y t ih =>
      intro b
      simp only [List.foldl_cons]
      obtain ⟨ih1, ih2, ih3⟩ := ih (pyStep b y)
      have hb' : b.objectCount ≤ (pyStep b y).objectCount := by
        by_cases hby : b.objectCount < y.objectCount <;> simp [pyStep, hby]
        omega
      have hy' : y.objectCount ≤ (pyStep b y).objectCount := by
        by_cases hby : b.objectCount < y.objectCount <;> simp [pyStep, hby]
        omega
      refine ⟨Nat.le_trans hb' ih1, ?_, ?_⟩
      · intro z hz
        rcases List.mem_cons.mp hz with h1 | h2
        · rw [h1]; exact Nat.le_trans hy' ih1
        · exact ih2 z h2
      · rcases ih3 with heq | ⟨i, h, hget, hlt, hstrict⟩
        · by_cases hby : b.objectCount < y.objectCount
          · refine Or.inr ⟨0, Nat.succ_pos _, ?_, ?_, ?_⟩
            · rw [heq]; simp [pyStep, hby]
            · rw [heq]; simp [pyStep, hby]
            · intro j hj; exact absurd hj (Nat.not_lt_zero j)
          · refine Or.inl ?_
            rw [heq]; simp [pyStep, hby]
        · refine Or.inr ⟨i + 1, Nat.succ_lt_succ h, hget, Nat.lt_of_le_of_lt hb' hlt, ?_⟩
          intro j hj
          cases j with
          | zero => exact Nat.lt_of_le_of_lt hy' hlt
          | succ j' => exact hstrict j' (Nat.lt_of_succ_lt_succ hj)

theorem fsGo_unit (us : List String) :
    ∀ d : Dy, "TB" ∈ us →
      ∃ u, u ∈ us ∧ ∃ dv : Dy, fsGo d us = renderUnit dv u := by
  induction us with
  | nil => intro d h; simp at h
  | cons u rest ih =>
      intro d h
      by_cases hc : d.m < 1024 * 2 ^ d.k ∨ u = "TB"
      · exact ⟨u, by simp, d, by simp [fsGo, hc]⟩
      · have hrest : "TB" ∈ rest := by
          rcases List.mem_cons.mp h with h1 | h2
          · exact absurd (Or.inr h1.symm) hc
          · exact h2
        obtain ⟨u', hu', dv, hdv⟩ := ih (dyFloatDiv1024 d) hrest
        exact ⟨u', by simp [hu'], dv, by simp [fsGo, hc, hdv]⟩

/-! ### The claims -/

/-- Claim C1, counterexample.  The code computes
`int(bucket_size * (count / bucket_objects))` in binary64 floating
point, not `floor(total_size_bytes * class_count / object_count)`: for
the bucket `{A: 29, B: 71}` with 100 objects and 100 bytes the class
`A` receives 28 bytes although `floor(100 * 29 / 100) = 29` (so the
per-class sum is 99 < 100 even though every share divides evenly), and
for the bucket `{A: 1, B: 9}` with 10 objects and `2 ^ 55` bytes the
attributed sizes sum to `2 ^ 55 + 1 > 2 ^ 55`, violating
`sum(class_size) <= total_size_bytes` outright. -/
theorem c1_counterexample :
    (write_summary_to_csv [pcRec]).storage_class_sizes = [("A", 28), ("B", 71)] ∧
      100 * 29 / 100 = 29 ∧
      sumVals (write_summary_to_csv [pcRec]).storage_class_sizes = 99 ∧
      (write_summary_to_csv [bigRec]).storage_class_sizes
        = [("A", 3602879701896397), ("B", 32425917317067572)] ∧
      bigRec.totalSize
        < sumVals (write_summary_to_csv [bigRec]).storage_class_sizes := by
  decide

/-- Claim C1, amended.  The Reporter attributes to each storage class
`int(total_size_bytes * (class_count / object_count))` evaluated in
IEEE binary64 arithmetic; on the claim's own example
(`{STANDARD: 3, GLACIER: 1}`, 4 objects, 4000 bytes) this coincides
with the floor formula, giving `STANDARD: 3000` and `GLACIER: 1000`,
whose sum is exactly `total_size_bytes`. -/
theorem c1_amended :
    (write_summary_to_csv [exRec]).storage_class_sizes
        = [("STANDARD", 3000), ("GLACIER", 1000)] ∧
      classSize 4000 3 4 = 4000 * 3 / 4 ∧
      classSize 4000 1 4 = 4000 * 1 / 4 ∧
      sumVals (write_summary_to_csv [exRec]).storage_class_sizes = exRec.totalSize := by
  decide

/-- Claim C2, counterexample.  On a credential failure the scan
returns `([], None)`, and `__main__` tests `if summary is not None:`,
which an empty list passes — so the report is still written and the
process exits 0, not 1. -/
theorem c2_counterexample :
    getS3Summary false [] 0 "123456789012" = ([], none) ∧
      mainExitCode (some (getS3Summary false [] 0 "123456789012")) = 0 :=
  ⟨rfl, rfl⟩

/-- Claim C2, amended.  `get_s3_summary` always returns a list (never
`None`), so the `sys.exit(1)` branch of `__main__` is unreachable: the
program exits 0 on every scan outcome, including a credential failure
or an otherwise empty result; only an actual `None` would exit 1. -/
theorem c2_amended :
    (∀ (credsOk : Bool) (inputs : List BucketInput) (d : Nat) (acct : String),
        mainExitCode (some (getS3Summary credsOk inputs d acct)) = 0) ∧
      mainExitCode none = 1 :=
  ⟨fun _ _ _ _ => rfl, rfl⟩

/-- Claim C3.  A `ClientError` during a bucket's pagination stops that
bucket and the scan continues with the next one: the scan of
`pre ++ [b] ++ post` is the scan of `pre`, then `b`'s partial record
exactly when at least one object was counted before the error, then
the scan of `post`. -/
theorem c3_access_error_partial (pre post : List BucketInput) (b : BucketInput)
    (hb : b.accessError = true) :
    scanRecords (pre ++ b :: post) =
      scanRecords pre ++
        (if 0 < (mkRecord b).objectCount then [mkRecord b] else []) ++
        scanRecords post := by
  rw [scanRecords_eq, scanRecords_eq, scanRecords_eq, List.filterMap_append,
    List.filterMap_cons]
  by_cases h0 : (accObjects b.pages.flatten).1 = 0
  · have hpb : processBucket b = none := by simp [processBucket, hb, h0]
    have hcnt : ¬0 < (mkRecord b).objectCount := by
      rw [mkRecord_objectCount, h0]; omega
    rw [hpb, if_neg hcnt]
    simp
  · have hpb : processBucket b = some (mkRecord b) := by simp [processBucket, hb, h0]
    have hcnt : 0 < (mkRecord b).objectCount := by
      rw [mkRecord_objectCount]; omega
    rw [hpb, if_pos hcnt]
    simp

/-- Witness for C3 at a concrete scan: a bucket that errors after one
7-byte STANDARD object, between two clean buckets, keeps its partial
record. -/
theorem c3_witness :
    errBucket.accessError = true ∧
      scanRecords ([ebkt 0] ++ errBucket :: [ebkt 1]) =
        scanRecords [ebkt 0] ++
          (if 0 < (mkRecord errBucket).objectCount then [mkRecord errBucket] else []) ++
          scanRecords [ebkt 1] :=
  ⟨rfl, c3_access_error_partial [ebkt 0] [ebkt 1] errBucket rfl⟩

/-- Claim C4.  With the deadline modelled as the number of buckets the
loop may attempt, `get_s3_summary` returns exactly the records of the
fully processed prefix — the in-progress bucket contributes nothing —
with `account_id = None` when that prefix produced no record; firing
after 2 of the 5 example buckets yields exactly those 2 records. -/
theorem c4_timeout_partial :
    (∀ (inputs : List BucketInput) (j : Nat) (acct : String),
        getS3Summary true inputs j acct =
          (let s := (inputs.take j).filterMap processBucket
           if s.isEmpty then ([], none) else (s, some acct))) ∧
      getS3Summary true exampleFive 2 "123456789012" =
        ([mkRecord (ebkt 0), mkRecord (ebkt 1)], some "123456789012") := by
  constructor
  · intro inputs j acct
    unfold getS3Summary
    simp [scanLoop_eq_filterMap]
  · decide

/-- Claim C5.  For a scan result whose records satisfy the scanner
invariant (histogram sums to `object_count`), the report's grand total
of objects is the plain sum of the records' `object_count`, and the
per-class object counts of the distribution sum to that same total. -/
theorem c5_totals_exact (summary : List BucketRecord)
    (hne : summary ≠ [])
    (hinv : ∀ r ∈ summary, sumVals r.storageClasses = r.objectCount) :
    (write_summary_to_csv summary).total_objects = (summary.map (·.objectCount)).sum ∧
      sumVals (write_summary_to_csv summary).storage_class_objects
        = (write_summary_to_csv summary).total_objects := by
  have hp1 : (write_summary_to_csv summary).total_objects
      = summary.foldl (fun a e => a + e.objectCount) 0 := rfl
  have hp2 : (write_summary_to_csv summary).storage_class_objects
      = (summary.foldl csvEntryStep ([], [])).1 := rfl
  have h1 : (write_summary_to_csv summary).total_objects
      = (summary.map (·.objectCount)).sum := by
    rw [hp1]; exact foldl_add_eq_sum (fun e => e.objectCount) summary
  refine ⟨h1, ?_⟩
  rw [hp2, sumVals_csvFold summary ([], []) hinv, h1]
  simp [sumVals]

/-- Witness for C5 on a two-record scan result. -/
theorem c5_witness :
    ([⟨"a", 2, 10, [("STANDARD", 2)]⟩, ⟨"b", 3, 9, [("GLACIER", 3)]⟩]
        : List BucketRecord) ≠ [] ∧
      (∀ r ∈ ([⟨"a", 2, 10, [("STANDARD", 2)]⟩, ⟨"b", 3, 9, [("GLACIER", 3)]⟩]
          : List BucketRecord), sumVals r.storageClasses = r.objectCount) ∧
      ((write_summary_to_csv
            [⟨"a", 2, 10, [("STANDARD", 2)]⟩, ⟨"b", 3, 9, [("GLACIER", 3)]⟩]).total_objects
          = (([⟨"a", 2, 10, [("STANDARD", 2)]⟩, ⟨"b", 3, 9, [("GLACIER", 3)]⟩]
              : List BucketRecord).map (·.objectCount)).sum ∧
        sumVals (write_summary_to_csv
            [⟨"a", 2, 10, [("STANDARD", 2)]⟩,
             ⟨"b", 3, 9, [("GLACIER", 3)]⟩]).storage_class_objects
          = (write_summary_to_csv
              [⟨"a", 2, 10, [("STANDARD", 2)]⟩,
               ⟨"b", 3, 9, [("GLACIER", 3)]⟩]).total_objects) :=
  ⟨by decide, by decide,
    c5_totals_exact _ (by decide) (by decide)⟩

/-- Claim C6.  A scan result with zero records and unknown account id
still produces a report: all totals are zero, both distribution maps
are empty, the console summary shows zero buckets/objects, "0 B", no
distribution rows and no largest bucket, and the process exits 0. -/
theorem c6_empty_report :
    write_summary_to_csv [] = ⟨0, 0, 0, [], []⟩ ∧
      print_console_summary [] none (some (write_summary_to_csv [])) =
        some ⟨none, 0, 0, "0 B", [], none⟩ ∧
      mainExitCode (some (([] : List BucketRecord), (none : Option String))) = 0 := by
  decide

/-- Claim C7.  Python's `max` with the `Object Count` key returns the
record at the earliest position carrying the maximal count: it is an
element, no record's count exceeds it, and every earlier record's
count is strictly smaller; on counts `[5, 20, 20, 3]` it returns the
index-1 record, not the index-2 one. -/
theorem c7_largest_bucket :
    (∀ (l : List BucketRecord) (x : BucketRecord) (xs : List BucketRecord),
        l = x :: xs →
        ∃ r, pyMax l = some r ∧
          ∃ i, ∃ h : i < l.length,
            l.get ⟨i, h⟩ = r ∧
            (∀ j, ∀ hj : j < l.length, (l.get ⟨j, hj⟩).objectCount ≤ r.objectCount) ∧
            ∀ j, ∀ hj : j < i,
              (l.get ⟨j, Nat.lt_trans hj h⟩).objectCount < r.objectCount) ∧
      pyMax ex7 = some ⟨"b1", 20, 200, [("STANDARD", 20)]⟩ := by
  constructor
  · intro l x xs hl
    subst hl
    obtain ⟨h1, h2, h3⟩ := pyFold_spec xs x
    refine ⟨xs.foldl pyStep x, rfl, ?_⟩
    rcases h3 with heq | ⟨i, h, hget, hlt, hstrict⟩
    · refine ⟨0, Nat.succ_pos _, heq.symm, ?_, ?_⟩
      · intro j hj
        cases j with
        | zero => exact h1
        | succ j' =>
            exact h2 _ (List.get_mem xs j' (Nat.lt_of_succ_lt_succ hj))
      · intro j hj; exact absurd hj (Nat.not_lt_zero j)
    · refine ⟨i + 1, Nat.succ_lt_succ h, hget, ?_, ?_⟩
      · intro j hj
        cases j with
        | zero => exact Nat.le_of_lt hlt
        | succ j' =>
            exact h2 _ (List.get_mem xs j' (Nat.lt_of_succ_lt_succ hj))
      · intro j hj
        cases j with
        | zero => exact hlt
        | succ j' => exact hstrict j' (Nat.lt_of_succ_lt_succ hj)
  · decide

/-- Witness for C7: the general part applied to the concrete
`[5, 20, 20, 3]` list. -/
theorem c7_witness :
    ex7 = ⟨"b0", 5, 50, [("STANDARD", 5)]⟩ ::
        [⟨"b1", 20, 200, [("STANDARD", 20)]⟩, ⟨"b2", 20, 300, [("STANDARD", 20)]⟩,
         ⟨"b3", 3, 30, [("STANDARD", 3)]⟩] ∧
      ∃ r, pyMax ex7 = some r ∧
        ∃ i, ∃ h : i < ex7.length,
          ex7.get ⟨i, h⟩ = r ∧
          (∀ j, ∀ hj : j < ex7.length, (ex7.get ⟨j, hj⟩).objectCount ≤ r.objectCount) ∧
          ∀ j, ∀ hj : j < i,
            (ex7.get ⟨j, Nat.lt_trans hj h⟩).objectCount < r.objectCount :=
  ⟨rfl,
    c7_largest_bucket.1 ex7 ⟨"b0", 5, 50, [("STANDARD", 5)]⟩
      [⟨"b1", 20, 200, [("STANDARD", 20)]⟩, ⟨"b2", 20, 300, [("STANDARD", 20)]⟩,
       ⟨"b3", 3, 30, [("STANDARD", 3)]⟩] rfl⟩

/-- Claim C8, counterexample.  `format_size` never produces "PB": the
loop's `or unit == 'TB'` clause returns at `TB` for every value of at
least `1024 ^ 4`, so `1024 ^ 5` formats as `"1,024.0 TB"` (and
`1024 ^ 6` as `"1,048,576.0 TB"`), not with a "PB" suffix. -/
theorem c8_counterexample :
    format_size (1024 ^ 5) = "1,024.0 TB" ∧
      format_size (1024 ^ 6) = "1,048,576.0 TB" := by
  decide

/-- Claim C8, amended.  Byte formatting is binary (base 1024) with
suffixes B/KB/MB/GB/TB and one decimal place except whole bytes —
`0 → "0 B"`, `1536 → "1.5 KB"`, `1073741824 → "1.0 GB"` — and the PB
branch after the loop is unreachable: every output uses one of the
five loop units. -/
theorem c8_amended :
    format_size 0 = "0 B" ∧
      format_size 1536 = "1.5 KB" ∧
      format_size 1073741824 = "1.0 GB" ∧
      ∀ n : Nat, ∃ u, u ∈ ["B", "KB", "MB", "GB", "TB"] ∧
        ∃ dv : Dy, format_size n = renderUnit dv u :=
  ⟨by decide, by decide, by decide,
    fun n => fsGo_unit ["B", "KB", "MB", "GB", "TB"] ⟨n, 0⟩ (by simp)⟩

/-- Claim C9.  Every record the scanner appends — full or partial —
has a histogram whose values sum to `object_count` and are all
positive; consequently a record with `object_count = 0` has an empty
histogram. -/
theorem c9_record_invariants (inputs : List BucketInput) (d : Nat) (r : BucketRecord)
    (hr : r ∈ scanLoop inputs d []) :
    sumVals r.storageClasses = r.objectCount ∧
      (∀ p ∈ r.storageClasses, 0 < p.2) ∧
      (r.objectCount = 0 → r.storageClasses = []) := by
  rw [scanLoop_eq_filterMap, List.nil_append] at hr
  obtain ⟨b, _, hpb⟩ := List.mem_filterMap.mp hr
  have hrec : r = mkRecord b := by
    unfold processBucket at hpb
    by_cases hc : b.accessError ∧ (accObjects b.pages.flatten).1 = 0
    · rw [if_pos hc] at hpb; cases hpb
    · rw [if_neg hc] at hpb; exact (Option.some.inj hpb).symm
  subst hrec
  have hinv := accObjects_inv b.pages.flatten
  refine ⟨hinv.1, hinv.2, fun h0 => ?_⟩
  exact sumVals_zero_pos_nil _ (hinv.1.trans h0) hinv.2

/-- Witness for C9 on a concrete scan containing a partial record. -/
theorem c9_witness :
    mkRecord errBucket ∈ scanLoop [ebkt 0, errBucket] 2 [] ∧
      (sumVals (mkRecord errBucket).storageClasses = (mkRecord errBucket).objectCount ∧
        (∀ p ∈ (mkRecord errBucket).storageClasses, 0 < p.2) ∧
        ((mkRecord errBucket).objectCount = 0 →
          (mkRecord errBucket).storageClasses = [])) :=
  ⟨by decide, c9_record_invariants [ebkt 0, errBucket] 2 (mkRecord errBucket) (by decide)⟩

/-- Claim C10.  The console fallback aggregation computes exactly the
statistics dict `write_summary_to_csv` returns: the two code paths are
duplicated logic, and the direct sums the fallback uses for the totals
agree with the CSV writer's running accumulation. -/
theorem c10_console_matches_csv (summary : List BucketRecord) :
    consoleFallbackStats summary = write_summary_to_csv summary := by
  have h2 : (summary.map (·.objectCount)).sum
      = summary.foldl (fun a e => a + e.objectCount) 0 :=
    (foldl_add_eq_sum (fun e => e.objectCount) summary).symm
  have h3 : (summary.map (·.totalSize)).sum
      = summary.foldl (fun a e => a + e.totalSize) 0 :=
    (foldl_add_eq_sum (fun e => e.totalSize) summary).symm
  unfold consoleFallbackStats write_summary_to_csv csvFirstPass
  unfold consoleEntryStep csvEntryStep
  simp only [h2, h3]

end S3Facts
